import Mathlib

/-!
Verification of the rule-based Python code analyzer in
`backend/models/analyzer.py` (class `PythonCodeAnalyzer`).

The analyzer consumes a syntax tree produced by Python's `ast` module
(an external collaborator: the spec delegates tree construction) together
with the raw source text, runs five read-only checks over `ast.walk` of the
tree, and reduces the collected issues to a quality score.

The shallow embedding below models:
  * the `CodeIssue` dataclass and the result dictionary of `analyze_code`;
  * the fragment of Python's AST the five checks inspect (function/class
    definitions, `if` statements, imports, expression statements, and the
    expression shapes relevant to the checks);
  * `ast.walk` (breadth-first traversal over a deque);
  * the textual whole-word search `re.findall(rf'\b{name}\b', code)` used by
    the unused-import heuristic;
  * `str.split` on `'\n'` and `'.'`;
  * the severity-weighted scoring function, with Python's `round(x, 1)`
    modelled on the (always integral) scores that actually occur.

Machine floats do not arise: every score the code computes is an integer
(`max` of ints), so `quality_score` is modelled in `ℚ`.
-/

namespace CodeReviewAI

/-- The three severity strings the analyzer ever stores in an issue
(`"error"`, `"warning"`, `"info"`); no other value is constructed anywhere
in `analyzer.py`, so the closed set is modelled as an inductive type. -/
inductive Severity where
  | error
  | warning
  | info
deriving DecidableEq, Repr

/-- The `CodeIssue` dataclass of `analyzer.py`. -/
structure CodeIssue where
  line_number : Nat
  issue_type : String
  severity : Severity
  message : String
  suggestion : String
deriving DecidableEq, Repr

/-- One entry of the `"issues"` list in the result dictionary returned by
`analyze_code` (the dataclass fields renamed: `line_number ↦ line`,
`issue_type ↦ type`). -/
structure ResultIssue where
  line : Nat
  type : String
  severity : Severity
  message : String
  suggestion : String
deriving DecidableEq, Repr

/-- The dictionary returned by `analyze_code`. -/
structure AnalysisResult where
  quality_score : ℚ
  issues : List ResultIssue
  total_issues : Nat
  lines_of_code : Nat
deriving DecidableEq, Repr

/-- The data carried by Python's `SyntaxError` that `analyze_code` uses:
`e.lineno` (which may be `None`) and `e.msg`. -/
structure ParseFailure where
  lineno : Option Nat
  msg : String
deriving DecidableEq, Repr

/-- The boolean operator of an `ast.BoolOp` node (`ast.And` / `ast.Or`).
In CPython a chain of the same operator parses to a single `BoolOp`: the
test of `if a and b and c and d and e:` is ONE `BoolOp(And, [a,b,c,d,e])`
carrying ONE `And` operator node. -/
inductive BoolOpKind where
  | andK
  | orK
deriving DecidableEq, Repr

/-- Fragment of Python's expression AST adequate for the five checks.
`boolOp` is `ast.BoolOp` (its single operator node plus its value list);
`name` is `ast.Name`; `const` is `ast.Constant` with a flag recording
whether its value is a `str` (all the docstring check inspects); `otherE`
stands for any other expression node, keeping only its expression children
(all that `ast.walk`-based counting observes). -/
inductive PyExpr where
  | boolOp (op : BoolOpKind) (values : List PyExpr)
  | name (id : String)
  | const (isStr : Bool)
  | otherE (children : List PyExpr)

/-- Fragment of Python's statement AST adequate for the five checks.
`functionDef` is `ast.FunctionDef` (name, `lineno`, optional `end_lineno`,
body); `classDef` is `ast.ClassDef`; `ifStmt` is `ast.If` (test, body,
orelse); `importStmt` is `ast.Import`, carrying the `alias.name` strings of
its aliases; `importFrom` is `ast.ImportFrom`, likewise; `exprStmt` is
`ast.Expr`; `otherStmt` stands for any other statement, keeping only its
statement children (e.g. the bodies of `for`/`while`/`try`/`with`). -/
inductive PyStmt where
  | functionDef (fname : String) (lineno : Nat) (end_lineno : Option Nat) (body : List PyStmt)
  | classDef (cname : String) (lineno : Nat) (body : List PyStmt)
  | ifStmt (lineno : Nat) (test : PyExpr) (body : List PyStmt) (orelse : List PyStmt)
  | importStmt (lineno : Nat) (names : List String)
  | importFrom (lineno : Nat) (names : List String)
  | exprStmt (lineno : Nat) (value : PyExpr)
  | otherStmt (lineno : Nat) (body : List PyStmt)

/-- An `ast.Module`: the list of top-level statements. -/
structure PyModule where
  body : List PyStmt

/-- The `lineno` attribute of a statement node. -/
def stmtLine : PyStmt → Nat
  | .functionDef _ lineno _ _ => lineno
  | .classDef _ lineno _ => lineno
  | .ifStmt lineno _ _ _ => lineno
  | .importStmt lineno _ => lineno
  | .importFrom lineno _ => lineno
  | .exprStmt lineno _ => lineno
  | .otherStmt lineno _ => lineno

/-- The statement children of a statement node, in the field order of
`ast.iter_child_nodes` (for `ast.If`: `body` then `orelse`). Expression
children are omitted: no statement can occur below an expression in
Python's AST, so dropping them does not change which statements a walk
visits nor their relative order. -/
def stmtChildren : PyStmt → List PyStmt
  | .functionDef _ _ _ body => body
  | .classDef _ _ body => body
  | .ifStmt _ _ body orelse => body ++ orelse
  | .importStmt _ _ => []
  | .importFrom _ _ => []
  | .exprStmt _ _ => []
  | .otherStmt _ body => body

mutual

/-- Number of statement nodes in a statement's subtree (the node itself
included). -/
def stmtSize : PyStmt → Nat
  | .functionDef _ _ _ body => 1 + stmtListSize body
  | .classDef _ _ body => 1 + stmtListSize body
  | .ifStmt _ _ body orelse => 1 + stmtListSize body + stmtListSize orelse
  | .importStmt _ _ => 1
  | .importFrom _ _ => 1
  | .exprStmt _ _ => 1
  | .otherStmt _ body => 1 + stmtListSize body

/-- Total number of statement nodes in the subtrees of a list of
statements. -/
def stmtListSize : List PyStmt → Nat
  | [] => 0
  | s :: r => stmtSize s + stmtListSize r

end

/-- One step of `ast.walk`'s loop per unit of fuel: pop the front of the
deque, yield it, extend the deque with its children. Every statement that
ever enters the deque is popped exactly once, and the total number of
statements that enter the deque starting from `q` is `stmtListSize q`, so
that much fuel runs the loop to completion (`walkAux_fuel_irrelevant`
below makes this formal). -/
def walkAux : Nat → List PyStmt → List PyStmt
  | 0, _ => []
  | _ + 1, [] => []
  | fuel + 1, s :: rest => s :: walkAux fuel (rest ++ stmtChildren s)

/-- The statements yielded by `ast.walk(tree)` for a module `tree`, in
breadth-first order. (`ast.walk` also yields the `Module` node itself and
all expression nodes; every check filters the walk with `isinstance`
against statement classes only, so those extra nodes are irrelevant and
are not produced here.) -/
def walkStmts (m : PyModule) : List PyStmt :=
  walkAux (stmtListSize m.body) m.body

mutual

/-- `len([n for n in ast.walk(e) if isinstance(n, (ast.And, ast.Or))])`:
the number of `And`/`Or` operator nodes in the subtree of `e`. Each
`BoolOp` node carries exactly one operator node, so each `boolOp`
contributes 1 regardless of how many values it chains. -/
def countBoolOps : PyExpr → Nat
  | .boolOp _ values => 1 + countBoolOpsList values
  | .name _ => 0
  | .const _ => 0
  | .otherE children => countBoolOpsList children

/-- Sum of `countBoolOps` over a list of expressions. -/
def countBoolOpsList : List PyExpr → Nat
  | [] => 0
  | e :: r => countBoolOps e + countBoolOpsList r

end

/-- A character matched by the regex class `\w` (ASCII range):
`[A-Za-z0-9_]`. -/
def isWordChar (c : Char) : Bool :=
  c.isAlphanum || c == '_'

/-- `\w`-ness of an optional character; past-the-text positions count as
non-word, exactly as `\b` treats the ends of the subject string. -/
def optWord : Option Char → Bool
  | none => false
  | some c => isWordChar c

/-- Match a literal pattern at the head of the text, returning the rest of
the text on success. -/
def takeLit : List Char → List Char → Option (List Char)
  | [], t => some t
  | _ :: _, [] => none
  | p :: ps, c :: cs => if p = c then takeLit ps cs else none

/-- Match the regex `\b LIT \b` (for the nonempty literal `p :: ps`) at the
current position, where `prev` is the character before that position
(`none` at the start of the subject). A `\b` holds where `\w`-ness changes
between adjacent positions. Returns the remaining text after the match. -/
def wordMatchAt (p : Char) (ps : List Char) (prev : Option Char) (text : List Char) :
    Option (List Char) :=
  match takeLit (p :: ps) text with
  | none => none
  | some rest =>
    if (optWord prev != isWordChar p) && (isWordChar (ps.getLastD p) != optWord rest.head?)
    then some rest
    else none

/-- The scanning loop of `re.findall`: try a match at each position; on
success count it and resume right after the matched substring (whose last
character becomes the new preceding character), otherwise advance one
character. Each step consumes at least one character of the text, so
`text.length` fuel always completes the scan. -/
def scanAux (p : Char) (ps : List Char) : Nat → Option Char → List Char → Nat
  | 0, _, _ => 0
  | _ + 1, _, [] => 0
  | fuel + 1, prev, c :: rest =>
    match wordMatchAt p ps prev (c :: rest) with
    | some remainder => 1 + scanAux p ps fuel (some (ps.getLastD p)) remainder
    | none => scanAux p ps fuel (some c) rest

/-- `len(re.findall(rf'\b{re.escape(nm)}\b', text))` — the number of
whole-word occurrences of `nm` in `text`. (`re.escape` makes the pattern a
literal; imported names are identifiers, hence nonempty.) -/
def wordCount (nm : String) (text : List Char) : Nat :=
  match nm.data with
  | [] => 0
  | p :: ps => scanAux p ps text.length none text

/-- `code.split('\n')`: split on every newline; the empty string splits to
one empty piece, exactly as in Python. -/
def splitNl : List Char → List (List Char)
  | [] => [[]]
  | c :: r =>
    if c = '\n' then [] :: splitNl r
    else
      match splitNl r with
      | [] => [[c]]
      | h :: t => (c :: h) :: t

/-- `len(code.split('\n'))`, the `"lines_of_code"` field of the result. -/
def linesOfCode (code : List Char) : Nat :=
  (splitNl code).length

/-- `alias.name.split('.')[0]`: the segment of a dotted module path before
the first dot. -/
def aliasTop (nm : String) : String :=
  ⟨nm.data.takeWhile (fun c => c != '.')⟩

/-- The body of the loop of `_check_function_length` for one walked node:
`ast.FunctionDef` nodes produce at most one issue. `end_line` is
`node.end_lineno or node.lineno` — Python's `or` falls back when
`end_lineno` is `None` (or the falsy `0`). -/
def functionLengthIssue : PyStmt → Option CodeIssue
  | .functionDef fname lineno end_lineno _ =>
    let end_line : Nat :=
      match end_lineno with
      | none => lineno
      | some e => if e = 0 then lineno else e
    let func_length : Int := (end_line : Int) - (lineno : Int) + 1
    if 50 < func_length then
      some ⟨lineno, "function_length", .warning,
        "Function '" ++ fname ++ "' is " ++ toString func_length ++ " lines long",
        "Consider breaking this function into smaller functions"⟩
    else if 20 < func_length then
      some ⟨lineno, "function_length", .info,
        "Function '" ++ fname ++ "' is " ++ toString func_length ++ " lines long",
        "Consider if this function could be simplified"⟩
    else none
  | _ => none

/-- `_check_function_length`: walk the tree and append the per-node issues
in order. (The `code` parameter of the Python method only computes a local
`lines` variable that is never read, so it is not modelled.) -/
def _check_function_length (m : PyModule) : List CodeIssue :=
  (walkStmts m).foldl (fun acc s => acc ++ (functionLengthIssue s).toList) []

/-- The docstring test of `_check_missing_docstrings`: the first body
statement is an `ast.Expr` whose value is an `ast.Constant` holding a
`str`. -/
def hasDocstring : List PyStmt → Bool
  | .exprStmt _ (.const true) :: _ => true
  | _ => false

/-- The body of the loop of `_check_missing_docstrings` for one walked
node: `FunctionDef` and `ClassDef` nodes lacking a leading docstring
produce one issue each. -/
def missingDocstringIssue : PyStmt → Option CodeIssue
  | .functionDef fname lineno _ body =>
    if hasDocstring body then none
    else some ⟨lineno, "missing_docstring", .info,
      "Function '" ++ fname ++ "' is missing a docstring",
      "Add a docstring to document what this function does"⟩
  | .classDef cname lineno body =>
    if hasDocstring body then none
    else some ⟨lineno, "missing_docstring", .info,
      "Class '" ++ cname ++ "' is missing a docstring",
      "Add a docstring to document what this class does"⟩
  | _ => none

/-- `_check_missing_docstrings`. -/
def _check_missing_docstrings (m : PyModule) : List CodeIssue :=
  (walkStmts m).foldl (fun acc s => acc ++ (missingDocstringIssue s).toList) []

/-- The import-collection loop of `_check_unused_imports`: for a plain
`import`, `alias.name.split('.')[0]` per alias; for a `from`-import,
`alias.name` per alias; in walk order. -/
def collectImports (m : PyModule) : List String :=
  (walkStmts m).foldl (fun acc s =>
    match s with
    | .importStmt _ ns => acc ++ ns.map aliasTop
    | .importFrom _ ns => acc ++ ns
    | _ => acc) []

/-- `import_name in [alias.name for alias in node.names]` for an import
node — note the comparison is against the RAW alias names, not the
dot-split ones. -/
def isImportWith (nm : String) : PyStmt → Bool
  | .importStmt _ ns => ns.contains nm
  | .importFrom _ ns => ns.contains nm
  | _ => false

/-- The inner loop of `_check_unused_imports`: the first import node in
walk order whose raw alias names contain `nm` (the loop breaks after the
first hit). -/
def findRawImport (m : PyModule) (nm : String) : Option PyStmt :=
  (walkStmts m).find? (isImportWith nm)

/-- `f"Import '{import_name}' appears to be unused"`. -/
def unusedMsg (nm : String) : String :=
  "Import '" ++ nm ++ "' appears to be unused"

/-- The body of the outer loop of `_check_unused_imports` for one
collected name: if its whole-word occurrence count in the source is at
most 1, emit one issue at the first raw import node that lists it (none if
no import node lists the name verbatim). -/
def unusedImportIssue (m : PyModule) (code : List Char) (nm : String) : Option CodeIssue :=
  if wordCount nm code ≤ 1 then
    (findRawImport m nm).map fun s =>
      ⟨stmtLine s, "unused_import", .info, unusedMsg nm,
        "Remove unused imports to keep code clean"⟩
  else none

/-- `_check_unused_imports`. -/
def _check_unused_imports (m : PyModule) (code : List Char) : List CodeIssue :=
  (collectImports m).foldl (fun acc nm => acc ++ (unusedImportIssue m code nm).toList) []

/-- The body of the loop of `_check_complex_conditions` for one walked
node: an `ast.If` whose test holds more than 3 `And`/`Or` operator nodes
produces one issue. -/
def complexConditionIssue : PyStmt → Option CodeIssue
  | .ifStmt lineno test _ _ =>
    if 3 < countBoolOps test then
      some ⟨lineno, "complex_condition", .warning,
        "Complex conditional statement with multiple boolean operators",
        "Consider breaking this into multiple conditions or using a helper function"⟩
    else none
  | _ => none

/-- `_check_complex_conditions`. -/
def _check_complex_conditions (m : PyModule) : List CodeIssue :=
  (walkStmts m).foldl (fun acc s => acc ++ (complexConditionIssue s).toList) []

/-- `re.match(r'^[a-z_][a-z0-9_]*$', name)` as a predicate. -/
def isSnakeCase (s : String) : Bool :=
  match s.data with
  | [] => false
  | c :: cs => (c.isLower || c == '_') && cs.all (fun d => d.isLower || d.isDigit || d == '_')

/-- `re.match(r'^[A-Z][a-zA-Z0-9]*$', name)` as a predicate. -/
def isPascalCase (s : String) : Bool :=
  match s.data with
  | [] => false
  | c :: cs => c.isUpper && cs.all (fun d => d.isAlpha || d.isDigit)

/-- `name.startswith('__')`. -/
def startsDunder (s : String) : Bool :=
  match s.data with
  | '_' :: '_' :: _ => true
  | _ => false

/-- The body of the loop of `_check_naming_conventions` for one walked
node. -/
def namingIssue : PyStmt → Option CodeIssue
  | .functionDef fname lineno _ _ =>
    if !isSnakeCase fname && !startsDunder fname then
      some ⟨lineno, "naming_convention", .info,
        "Function '" ++ fname ++ "' doesn't follow snake_case convention",
        "Use snake_case for function names (e.g., my_function)"⟩
    else none
  | .classDef cname lineno _ =>
    if !isPascalCase cname then
      some ⟨lineno, "naming_convention", .info,
        "Class '" ++ cname ++ "' doesn't follow PascalCase convention",
        "Use PascalCase for class names (e.g., MyClass)"⟩
    else none
  | _ => none

/-- `_check_naming_conventions`. -/
def _check_naming_conventions (m : PyModule) : List CodeIssue :=
  (walkStmts m).foldl (fun acc s => acc ++ (namingIssue s).toList) []

/-- The `severity_weights` dictionary of `_calculate_quality_score`. -/
def severityWeight : Severity → Int
  | .error => -20
  | .warning => -10
  | .info => -5

/-- `total_deduction = sum(severity_weights[issue.severity] for issue in
self.issues)`. -/
def totalDeduction (issues : List CodeIssue) : Int :=
  (issues.map fun i => severityWeight i.severity).sum

/-- `score = max(0, 100 + total_deduction)` — an integer. -/
def rawScore (issues : List CodeIssue) : Int :=
  max 0 (100 + totalDeduction issues)

/-- Python's `round(x, 1)` on the values the analyzer feeds it. The code
only ever rounds integers (`round(score, 1)` with `score` an int), where
every rounding mode agrees; the model uses round-half-up on tenths. -/
def round1 (x : ℚ) : ℚ :=
  ((round (10 * x) : ℤ) : ℚ) / 10

/-- `_calculate_quality_score`: 100.0 for an empty issue list, otherwise
the clamped weighted score rounded to one decimal place. -/
def _calculate_quality_score (issues : List CodeIssue) : ℚ :=
  if issues.isEmpty then 100
  else round1 ((rawScore issues : ℤ) : ℚ)

/-- The dictionary entry built from a `CodeIssue` in the `"issues"` list
comprehension of `analyze_code`. -/
def toResultIssue (i : CodeIssue) : ResultIssue :=
  ⟨i.line_number, i.issue_type, i.severity, i.message, i.suggestion⟩

/-- `PythonCodeAnalyzer.analyze_code`. The analyzer instance's only state
is `self.issues`, passed in as `self` and returned (updated) as the second
component; the method begins with `self.issues = []`, so the incoming
state is discarded before anything else happens. `parsed` is the outcome
of the external `ast.parse(code)`: a tree, or a `SyntaxError` caught by
the `except` clause. On the success branch the five checks run in program
order, each appending its issues; on the failure branch a single
synthetic `syntax_error` issue is returned with score 0 (and `self.issues`
stays `[]`). `e.lineno or 1` falls back to line 1 when the failure carries
no (or a zero) line number. -/
def analyze_code (self : List CodeIssue) (parsed : Except ParseFailure PyModule)
    (code : List Char) : AnalysisResult × List CodeIssue :=
  match parsed with
  | .ok tree =>
    let issues : List CodeIssue :=
      _check_function_length tree ++ _check_missing_docstrings tree ++
      _check_unused_imports tree code ++ _check_complex_conditions tree ++
      _check_naming_conventions tree
    ({ quality_score := _calculate_quality_score issues
       issues := issues.map toResultIssue
       total_issues := issues.length
       lines_of_code := linesOfCode code }, issues)
  | .error e =>
    ({ quality_score := 0
       issues := [⟨match e.lineno with | none => 1 | some l => if l = 0 then 1 else l,
         "syntax_error", .error,
         "Syntax error: " ++ e.msg,
         "Fix the syntax error before analysis can continue"⟩]
       total_issues := 1
       lines_of_code := linesOfCode code }, [])

/-! ### Claim-side definitions

These definitions are written from the words of the spec / claims, to be
compared against the source translations above. -/

mutual

/-- Claim-side count for C1: the number of boolean connective operators
(logical AND / OR) textually appearing anywhere within an expression,
including nested sub-expressions. An `ast.BoolOp` chaining `n` values
represents `n - 1` textual connectives (e.g. `a and b and c and d and e`
is one `BoolOp` with 5 values and 4 `and`s). -/
def connectiveCount : PyExpr → Nat
  | .boolOp _ values => (values.length - 1) + connectiveCountList values
  | .name _ => 0
  | .const _ => 0
  | .otherE children => connectiveCountList children

/-- Sum of `connectiveCount` over a list of expressions. -/
def connectiveCountList : List PyExpr → Nat
  | [] => 0
  | e :: r => connectiveCount e + connectiveCountList r

end

/-- Claim-side per-node rule for the amended C1: for an `if` statement,
count the `And`/`Or` operator NODES in its test (one per contiguous
same-operator chain, i.e. one per `BoolOp` node) and emit exactly one
`complex_condition` warning when that node count exceeds 3, no issue
otherwise; non-`if` statements emit nothing. -/
def complexConditionSpecIssue : PyStmt → Option CodeIssue
  | .ifStmt lineno test _ _ =>
    if 3 < countBoolOps test then
      some ⟨lineno, "complex_condition", .warning,
        "Complex conditional statement with multiple boolean operators",
        "Consider breaking this into multiple conditions or using a helper function"⟩
    else none
  | _ => none

/-- Claim-side per-node rule for C5: the span of a function definition is
end line − start line + 1, and 1 when no end line is available; span > 50
gives one `function_length` warning, 20 < span ≤ 50 one `function_length`
info issue, span ≤ 20 none, the message stating the function's name and
its line count. -/
def functionLengthSpecIssue : PyStmt → Option CodeIssue
  | .functionDef fname lineno end_lineno _ =>
    let span : Int :=
      match end_lineno with
      | none => 1
      | some e => (e : Int) - (lineno : Int) + 1
    if 50 < span then
      some ⟨lineno, "function_length", .warning,
        "Function '" ++ fname ++ "' is " ++ toString span ++ " lines long",
        "Consider breaking this function into smaller functions"⟩
    else if 20 < span then
      some ⟨lineno, "function_length", .info,
        "Function '" ++ fname ++ "' is " ++ toString span ++ " lines long",
        "Consider if this function could be simplified"⟩
    else none
  | _ => none

/-- Claim-side per-severity deduction for C4: −20 for `error`, −10 for
`warning`, −5 for `info`. -/
def specDeduction : Severity → Int
  | .error => -20
  | .warning => -10
  | .info => -5

/-! ### Concrete instances for counterexamples and witnesses -/

/-- The parse of `if a and b and c and d and e:` followed by a bare `x` in
the body — an `if` whose test chains 4 `and` operators. CPython parses the
test to a single `BoolOp(And, [a, b, c, d, e])`. -/
def chainIfModule : PyModule :=
  ⟨[.ifStmt 1 (.boolOp .andK [.name "a", .name "b", .name "c", .name "d", .name "e"])
      [.exprStmt 2 (.name "x")] []]⟩

/-- The source text matching `chainIfModule`. -/
def chainIfCode : List Char :=
  "if a and b and c and d and e:\n    x".data

/-- The parse of the one-line source `import os.path`: a single
`ast.Import` whose only alias has `name = "os.path"`. -/
def dottedImportModule : PyModule :=
  ⟨[.importStmt 1 ["os.path"]]⟩

/-- The source text `import os.path`. -/
def dottedImportCode : List Char :=
  "import os.path".data

/-- The parse of the one-line source `from x import json`: a single
`ast.ImportFrom` whose only alias has `name = "json"`. -/
def jsonImportModule : PyModule :=
  ⟨[.importFrom 1 ["json"]]⟩

/-- The source text `from x import json`. -/
def jsonImportCode : List Char :=
  "from x import json".data

/-! ### Helper lemmas -/

/-- A fold that appends at most one element per item is a `filterMap`. -/
theorem foldl_emitOpt {α β : Type} (f : α → Option β) :
    ∀ (l : List α) (init : List β),
      l.foldl (fun acc s => acc ++ (f s).toList) init = init ++ l.filterMap f := by
  intro l
  induction l with
  | nil => simp
  | cons a rest ih =>
    intro init
    cases hfa : f a with
    | none => simp [List.foldl_cons, hfa, ih]
    | some b => simp [List.foldl_cons, hfa, ih, List.filterMap_cons]

/-- Statement-count of a concatenation. -/
theorem stmtListSize_append (a b : List PyStmt) :
    stmtListSize (a ++ b) = stmtListSize a + stmtListSize b := by
  induction a with
  | nil => simp [stmtListSize]
  | cons s r ih => simp [stmtListSize, ih]; omega

/-- Every statement node accounts for itself plus its children subtrees. -/
theorem stmtSize_children (s : PyStmt) :
    stmtSize s = 1 + stmtListSize (stmtChildren s) := by
  cases s <;> simp [stmtSize, stmtChildren, stmtListSize, stmtListSize_append] <;> omega

/-- A statement subtree holds at least one node. -/
theorem stmtSize_pos (s : PyStmt) : 1 ≤ stmtSize s := by
  rw [stmtSize_children]; omega

/-- `walkAux` runs the queue to exhaustion whenever given at least
`stmtListSize q` fuel: the result does not depend on the exact fuel. This
justifies the fuel chosen in `walkStmts`. -/
theorem walkAux_fuel_irrelevant :
    ∀ (fuel fuel' : Nat) (q : List PyStmt),
      stmtListSize q ≤ fuel → stmtListSize q ≤ fuel' →
      walkAux fuel q = walkAux fuel' q := by
  intro fuel
  induction fuel with
  | zero =>
    intro fuel' q hq _
    cases q with
    | nil => cases fuel' <;> rfl
    | cons s rest =>
      exfalso
      have h1 := stmtSize_pos s
      simp [stmtListSize] at hq
      omega
  | succ f ih =>
    intro fuel' q hq hq'
    cases q with
    | nil => cases fuel' <;> rfl
    | cons s rest =>
      have h1 := stmtSize_pos s
      have hsz : stmtListSize (s :: rest) = stmtSize s + stmtListSize rest := rfl
      cases fuel' with
      | zero => exfalso; omega
      | succ f' =>
        have hrec : stmtListSize (rest ++ stmtChildren s) = stmtListSize (s :: rest) - 1 := by
          rw [stmtListSize_append, hsz, stmtSize_children s]
          omega
        show s :: walkAux f (rest ++ stmtChildren s) = s :: walkAux f' (rest ++ stmtChildren s)
        rw [ih f' (rest ++ stmtChildren s) (by omega) (by omega)]

/-- `splitNl` never returns an empty list of pieces. -/
theorem splitNl_ne_nil (l : List Char) : splitNl l ≠ [] := by
  cases l with
  | nil => simp [splitNl]
  | cons c r =>
    rw [splitNl]
    split
    · simp
    · cases h : splitNl r <;> simp

/-- `len(code.split('\n'))` is the newline count plus one. -/
theorem splitNl_length (code : List Char) :
    (splitNl code).length = code.count '\n' + 1 := by
  induction code with
  | nil => simp [splitNl]
  | cons c r ih =>
    rw [splitNl]
    by_cases hc : c = '\n'
    · rw [if_pos hc, hc]
      simp [List.count_cons]
      omega
    · rw [if_neg hc]
      cases h : splitNl r with
      | nil => exact absurd h (splitNl_ne_nil r)
      | cons piece rest =>
        have : (piece :: rest).length = r.count '\n' + 1 := by rw [← h, ih]
        simp at this
        simp [List.count_cons, hc, this]

/-- Rounding to one decimal place leaves integers unchanged. -/
theorem round1_intCast (n : ℤ) : round1 ((n : ℤ) : ℚ) = ((n : ℤ) : ℚ) := by
  unfold round1
  have h : (10 : ℚ) * (n : ℚ) = ((10 * n : ℤ) : ℚ) := by push_cast; ring
  rw [h, round_intCast]
  push_cast
  ring

/-- Every severity deducts at least 5 points. -/
theorem severityWeight_le (sev : Severity) : severityWeight sev ≤ -5 := by
  cases sev <;> norm_num [severityWeight]

/-- Every severity weight is a multiple of 5. -/
theorem severityWeight_dvd (sev : Severity) : (5 : ℤ) ∣ severityWeight sev := by
  cases sev <;> norm_num [severityWeight]

/-- The total deduction never adds points. -/
theorem totalDeduction_nonpos (issues : List CodeIssue) : totalDeduction issues ≤ 0 := by
  induction issues with
  | nil => simp [totalDeduction]
  | cons i r ih =>
    have h1 := severityWeight_le i.severity
    simp only [totalDeduction, List.map_cons, List.sum_cons] at ih ⊢
    omega

/-- A nonempty issue list deducts at least 5 points. -/
theorem totalDeduction_cons_le (i : CodeIssue) (r : List CodeIssue) :
    totalDeduction (i :: r) ≤ -5 := by
  have h1 := severityWeight_le i.severity
  have h2 := totalDeduction_nonpos r
  simp only [totalDeduction, List.map_cons, List.sum_cons] at h2 ⊢
  omega

/-- The total deduction is a multiple of 5. -/
theorem totalDeduction_dvd (issues : List CodeIssue) : (5 : ℤ) ∣ totalDeduction issues := by
  induction issues with
  | nil => simp [totalDeduction]
  | cons i r ih =>
    simp only [totalDeduction, List.map_cons, List.sum_cons] at ih ⊢
    exact dvd_add (severityWeight_dvd i.severity) ih

/-- The unrounded score is in `[0, 100]`. -/
theorem rawScore_bounds (issues : List CodeIssue) :
    0 ≤ rawScore issues ∧ rawScore issues ≤ 100 := by
  have h := totalDeduction_nonpos issues
  constructor
  · exact le_max_left 0 _
  · exact max_le (by norm_num) (by omega)

/-- The unrounded score is a multiple of 5. -/
theorem rawScore_dvd (issues : List CodeIssue) : (5 : ℤ) ∣ rawScore issues := by
  rcases max_choice 0 (100 + totalDeduction issues) with h | h <;> rw [rawScore, h]
  · norm_num
  · exact dvd_add (by norm_num) (totalDeduction_dvd issues)

/-- The quality score is exactly the (cast of the) unrounded integer
score: the round-to-one-decimal step never changes it, and the early
return `100.0` for an empty list agrees with the formula. -/
theorem quality_score_eq_rawScore (issues : List CodeIssue) :
    _calculate_quality_score issues = ((rawScore issues : ℤ) : ℚ) := by
  unfold _calculate_quality_score
  split
  · next h =>
    rw [List.isEmpty_iff] at h
    subst h
    norm_num [rawScore, totalDeduction]
  · exact round1_intCast _

/-- A nonempty issue list scores at most 95, hence never 100. -/
theorem quality_score_lt_100 (i : CodeIssue) (r : List CodeIssue) :
    _calculate_quality_score (i :: r) ≠ 100 := by
  rw [quality_score_eq_rawScore]
  have h1 := totalDeduction_cons_le i r
  have h2 : rawScore (i :: r) ≤ 95 := max_le (by norm_num) (by omega)
  intro h
  have h3 : ((rawScore (i :: r) : ℤ) : ℚ) = ((100 : ℤ) : ℚ) := by rw [h]; norm_num
  have h4 : rawScore (i :: r) = 100 := Int.cast_injective h3
  omega

/-- `unusedMsg` is injective: distinct import names never collide on the
issue message. -/
theorem unusedMsg_inj (a b : String) (h : unusedMsg a = unusedMsg b) : a = b := by
  unfold unusedMsg at h
  have hd : ("Import '" ++ a ++ "' appears to be unused").data
      = ("Import '" ++ b ++ "' appears to be unused").data := by rw [h]
  simp only [String.data_append] at hd
  have h2 : ("Import '").data ++ a.data = ("Import '").data ++ b.data :=
    List.append_cancel_right hd
  have h3 : a.data = b.data := List.append_cancel_left h2
  cases a; cases b; exact congrArg String.mk h3

/-- If exactly one list element satisfies `a = nm`, and `p` accepts
exactly the outputs of `f` at `nm`, then filtering the `filterMap` of the
list keeps exactly `f nm`'s output. -/
theorem filter_filterMap_count_one (f : String → Option CodeIssue) (p : CodeIssue → Bool)
    (nm : String) (hf : ∀ a i, f a = some i → (p i = true ↔ a = nm)) :
    ∀ L : List String, L.count nm = 1 →
      (L.filterMap f).filter p = (f nm).toList := by
  have hstep : ∀ L : List String,
      (L.filterMap f).filter p = (L.filter (fun a => a == nm)).filterMap f := by
    intro L
    induction L with
    | nil => simp
    | cons a rest ih =>
      by_cases ha : a = nm
      · subst ha
        cases hfa : f a with
        | none => simp [List.filterMap_cons, hfa, ih]
        | some i =>
          have hp : p i = true := (hf a i hfa).mpr rfl
          simp [List.filterMap_cons, hfa, List.filter_cons, hp, ih]
      · cases hfa : f a with
        | none =>
          have hbeq : (a == nm) = false := by simpa using ha
          simp [List.filterMap_cons, hfa, List.filter_cons, hbeq, ih]
        | some i =>
          have hp : p i = false := by
            cases hpi : p i
            · rfl
            · exact absurd ((hf a i hfa).mp hpi) ha
          have hbeq : (a == nm) = false := by simpa using ha
          simp [List.filterMap_cons, hfa, List.filter_cons, hp, hbeq, ih]
  intro L hL
  have hfilter : L.filter (fun a => a == nm) = [nm] := by
    induction L with
    | nil => simp at hL
    | cons a rest ih =>
      by_cases ha : a = nm
      · subst ha
        rw [List.count_cons_self] at hL
        have h0 : rest.count a = 0 := by omega
        have hnil : rest.filter (fun x => x == a) = [] := by
          rw [List.filter_eq_nil_iff]
          intro x hx
          simp only [beq_iff_eq]
          intro hxa
          subst hxa
          rw [List.count_eq_zero] at h0
          exact h0 hx
        simp [List.filter_cons, hnil]
      · rw [List.count_cons_of_ne (by simpa using (Ne.symm ha))] at hL
        simp only [List.filter_cons]
        have hbeq : (a == nm) = false := by simpa using ha
        rw [hbeq]
        simp only [Bool.false_eq_true, if_false]
        exact ih hL
  rw [hstep, hfilter]
  cases hfn : f nm <;> simp [hfn]

/-- The source per-node function-length rule agrees with the claim-side
rule on every statement (in particular, Python's truthiness fallback for
`end_lineno == 0` changes nothing: both sides emit no issue there). -/
theorem functionLengthIssue_eq (s : PyStmt) :
    functionLengthIssue s = functionLengthSpecIssue s := by
  cases s with
  | functionDef fname lineno end_lineno body =>
    cases end_lineno with
    | none =>
      simp only [functionLengthIssue, functionLengthSpecIssue]
      have h : ((lineno : Int) - (lineno : Int) + 1) = 1 := by ring
      rw [h]
    | some e =>
      by_cases he : e = 0
      · subst he
        have hsrc : functionLengthIssue (.functionDef fname lineno (some 0) body) = none := by
          simp [functionLengthIssue]
        have hspec : functionLengthSpecIssue (.functionDef fname lineno (some 0) body) = none := by
          simp only [functionLengthSpecIssue]
          split_ifs with h1 h2
          · exfalso; push_cast at h1; omega
          · exfalso; push_cast at h2; omega
          · rfl
        rw [hsrc, hspec]
      · simp only [functionLengthIssue, functionLengthSpecIssue, if_neg he]
  | classDef cname lineno body => rfl
  | ifStmt lineno test body orelse => rfl
  | importStmt lineno names => rfl
  | importFrom lineno names => rfl
  | exprStmt lineno value => rfl
  | otherStmt lineno body => rfl

/-- A flat list of `Name` atoms contains no boolean operator node. -/
theorem countBoolOpsList_names (ns : List String) :
    countBoolOpsList (ns.map PyExpr.name) = 0 := by
  induction ns with
  | nil => rfl
  | cons n r ih => simp [List.map_cons, countBoolOpsList, countBoolOps, ih]

/-! ### Claims -/

/-- Claim C1, counterexample: an `if` whose test chains 4 `and` operators
(`if a and b and c and d and e:`) carries 4 boolean connectives, yet the
check emits NO `complex_condition` issue — the code counts `And`/`Or`
operator nodes, and the whole chain is a single `BoolOp` with one `And`
node, so its count is 1, not 4. The full analysis of this module emits no
issue at all. -/
theorem C1_complex_condition_counterexample :
    connectiveCount (.boolOp .andK [.name "a", .name "b", .name "c", .name "d", .name "e"]) = 4
    ∧ _check_complex_conditions chainIfModule = []
    ∧ ((analyze_code [] (.ok chainIfModule) chainIfCode).1).issues = [] :=
  ⟨rfl, rfl, rfl⟩

/-- Claim C1 (amended): for every `if` statement the analyzer counts the
`And`/`Or` operator NODES in the test's AST — one per contiguous
same-operator chain, i.e. one per `BoolOp` node — and emits exactly one
`complex_condition` issue of severity `warning` when that node count
exceeds 3 and none otherwise; in particular a flat chain of atoms joined
by one operator yields a count of 1 and hence no issue, however many
connectives it spells. -/
theorem C1_complex_condition_amended (m : PyModule) :
    _check_complex_conditions m = (walkStmts m).filterMap complexConditionSpecIssue
    ∧ ∀ (op : BoolOpKind) (ns : List String) (lineno : Nat) (body orelse : List PyStmt),
        complexConditionSpecIssue
          (.ifStmt lineno (.boolOp op (ns.map PyExpr.name)) body orelse) = none := by
  constructor
  · have hfun : complexConditionIssue = complexConditionSpecIssue :=
      funext fun s => by cases s <;> rfl
    unfold _check_complex_conditions
    rw [foldl_emitOpt, List.nil_append, hfun]
  · intro op ns lineno body orelse
    have h : countBoolOps (.boolOp op (ns.map PyExpr.name)) = 1 := by
      simp [countBoolOps, countBoolOpsList_names]
    simp [complexConditionSpecIssue, h]

/-- Claim C2, counterexample: for the source `import os.path` the analyzer
collects the top-level segment `os`, whose whole-word occurrence count in
the source is 1 (≤ 1), yet NO `unused_import` issue is emitted: the
locating loop compares `os` against the raw alias name `os.path` and never
matches, so the append is skipped. The full analysis emits no issue at
all. -/
theorem C2_unused_import_counterexample :
    collectImports dottedImportModule = ["os"]
    ∧ wordCount "os" dottedImportCode = 1
    ∧ _check_unused_imports dottedImportModule dottedImportCode = []
    ∧ ((analyze_code [] (.ok dottedImportModule) dottedImportCode).1).issues = [] :=
  ⟨rfl, rfl, rfl, rfl⟩

/-- Claim C2 (amended): for an imported name collected exactly once whose
whole-word occurrence count in the source is at most 1, the analyzer emits
exactly one `unused_import` issue of severity `info` at the line of the
first import statement (in walk order) whose RAW alias-name list contains
the name verbatim — hence none at all for a dotted plain import, whose
collected top-level segment matches no raw alias name; a name occurring
more than once gets no such issue. -/
theorem C2_unused_import_amended (m : PyModule) (code : List Char) (nm : String)
    (h1 : (collectImports m).count nm = 1) :
    (∀ s : PyStmt, wordCount nm code ≤ 1 → findRawImport m nm = some s →
      (_check_unused_imports m code).filter (fun i => i.message == unusedMsg nm)
        = [⟨stmtLine s, "unused_import", Severity.info, unusedMsg nm,
            "Remove unused imports to keep code clean"⟩])
    ∧ (1 < wordCount nm code →
      (_check_unused_imports m code).filter (fun i => i.message == unusedMsg nm) = []) := by
  have hrw : _check_unused_imports m code
      = (collectImports m).filterMap (unusedImportIssue m code) := by
    unfold _check_unused_imports
    rw [foldl_emitOpt, List.nil_append]
  have hf : ∀ a i, unusedImportIssue m code a = some i
      → ((i.message == unusedMsg nm) = true ↔ a = nm) := by
    intro a i hai
    have hmsg : i.message = unusedMsg a := by
      unfold unusedImportIssue at hai
      split at hai
      · cases hfi : findRawImport m a with
        | none => rw [hfi] at hai; simp at hai
        | some s =>
          rw [hfi] at hai
          have hx : (⟨stmtLine s, "unused_import", Severity.info, unusedMsg a,
              "Remove unused imports to keep code clean"⟩ : CodeIssue) = i := by
            simpa using hai
          rw [← hx]
      · simp at hai
    constructor
    · intro hp
      have hm : unusedMsg a = unusedMsg nm := by
        rw [← hmsg]
        exact eq_of_beq hp
      exact unusedMsg_inj a nm hm
    · intro ha
      subst ha
      rw [hmsg]
      exact beq_self_eq_true _
  have hkey := filter_filterMap_count_one (unusedImportIssue m code)
      (fun i => i.message == unusedMsg nm) nm hf (collectImports m) h1
  rw [hrw]
  constructor
  · intro s hw hfind
    rw [hkey]
    unfold unusedImportIssue
    rw [if_pos hw, hfind]
    rfl
  · intro hw
    rw [hkey]
    unfold unusedImportIssue
    rw [if_neg (by omega)]
    rfl

/-- Witness for C2 (amended): analyzing `from x import json` — the name
`json` is collected once, occurs exactly once in the source, and the check
emits exactly one `unused_import`/`info` issue at line 1. -/
theorem C2_unused_import_witness :
    (collectImports jsonImportModule).count "json" = 1
    ∧ wordCount "json" jsonImportCode ≤ 1
    ∧ (_check_unused_imports jsonImportModule jsonImportCode).filter
        (fun i => i.message == unusedMsg "json")
      = [⟨1, "unused_import", Severity.info, unusedMsg "json",
          "Remove unused imports to keep code clean"⟩] :=
  ⟨rfl, by decide,
    (C2_unused_import_amended jsonImportModule jsonImportCode "json" rfl).1
      (.importFrom 1 ["json"]) (by decide) rfl⟩

/-- Claim C3: when parsing fails, the result holds exactly one issue, of
kind `syntax_error` and severity `error`, at the failure's reported line
(1 when none is reported), with quality score 0 and `total_issues` 1.
(CPython's `SyntaxError.lineno` is never 0, which the hypothesis
records.) -/
theorem C3_syntax_error_result (self : List CodeIssue) (e : ParseFailure) (code : List Char)
    (h : e.lineno ≠ some 0) :
    ((analyze_code self (.error e) code).1).issues
      = [⟨e.lineno.getD 1, "syntax_error", Severity.error,
          "Syntax error: " ++ e.msg, "Fix the syntax error before analysis can continue"⟩]
    ∧ ((analyze_code self (.error e) code).1).quality_score = 0
    ∧ ((analyze_code self (.error e) code).1).total_issues = 1 := by
  refine ⟨?_, rfl, rfl⟩
  cases he : e.lineno with
  | none => simp [analyze_code, he]
  | some l =>
    have hl : ¬ l = 0 := fun h0 => h (by rw [he, h0])
    simp [analyze_code, he, hl]

/-- Witness for C3: a failure reported at line 1 with message
`invalid syntax` produces exactly the single synthetic issue, score 0 and
total 1. -/
theorem C3_syntax_error_witness :
    (⟨some 1, "invalid syntax"⟩ : ParseFailure).lineno ≠ some 0
    ∧ ((analyze_code [] (.error ⟨some 1, "invalid syntax"⟩) "def f(:".data).1).issues
      = [⟨1, "syntax_error", Severity.error, "Syntax error: invalid syntax",
          "Fix the syntax error before analysis can continue"⟩]
    ∧ ((analyze_code [] (.error ⟨some 1, "invalid syntax"⟩) "def f(:".data).1).quality_score = 0
    ∧ ((analyze_code [] (.error ⟨some 1, "invalid syntax"⟩) "def f(:".data).1).total_issues = 1 :=
  ⟨by decide,
    C3_syntax_error_result [] ⟨some 1, "invalid syntax"⟩ "def f(:".data (by decide)⟩

/-- Claim C4: on the success branch, the quality score equals
`max(0, 100 + Σ per-severity deduction)` over the result's own issue list
(−20 per `error`, −10 per `warning`, −5 per `info`), rounded to one
decimal place — a pure function of the issue list alone. -/
theorem C4_quality_score_formula (self : List CodeIssue) (m : PyModule) (code : List Char) :
    ((analyze_code self (.ok m) code).1).quality_score
      = round1 (((max 0 (100 + ((((analyze_code self (.ok m) code).1).issues.map
          fun i => specDeduction i.severity).sum)) : ℤ) : ℚ)) := by
  have hsd : ∀ sev, specDeduction sev = severityWeight sev := fun sev => by cases sev <;> rfl
  have key : ∀ I : List CodeIssue,
      _calculate_quality_score I
        = round1 (((max 0 (100 + ((I.map toResultIssue).map
            fun i => specDeduction i.severity).sum) : ℤ) : ℚ)) := by
    intro I
    have hcomp : ((fun i : ResultIssue => specDeduction i.severity) ∘ toResultIssue)
        = fun i : CodeIssue => severityWeight i.severity :=
      funext fun i => hsd i.severity
    have hmap : ((I.map toResultIssue).map fun i : ResultIssue => specDeduction i.severity).sum
        = totalDeduction I := by
      rw [List.map_map, hcomp]
      rfl
    rw [hmap, quality_score_eq_rawScore, rawScore, round1_intCast]
  exact key _

/-- Claim C5: for every function definition walked, with span =
end line − start line + 1 (1 when no end line is available): span > 50
yields exactly one `function_length` warning, 20 < span ≤ 50 exactly one
`function_length` info issue, span ≤ 20 none, the message stating the
function's name and line count — the check's output is exactly the
per-function rule mapped over the walk. -/
theorem C5_function_length_thresholds (m : PyModule) :
    _check_function_length m = (walkStmts m).filterMap functionLengthSpecIssue := by
  have hfun : functionLengthIssue = functionLengthSpecIssue := funext functionLengthIssue_eq
  unfold _check_function_length
  rw [foldl_emitOpt, List.nil_append, hfun]

/-- Claim C6: for every result of `analyze_code` — success or parse
failure — the issue list is empty exactly when the quality score is
100.0. -/
theorem C6_empty_iff_perfect_score (self : List CodeIssue)
    (parsed : Except ParseFailure PyModule) (code : List Char) :
    ((analyze_code self parsed code).1).issues = []
      ↔ ((analyze_code self parsed code).1).quality_score = 100 := by
  cases parsed with
  | error e =>
    constructor
    · intro h
      exact absurd h (by simp [analyze_code])
    · intro h
      have h0 : ((analyze_code self (.error e) code).1).quality_score = 0 := rfl
      rw [h0] at h
      norm_num at h
  | ok m =>
    have key : ∀ I : List CodeIssue,
        (I.map toResultIssue = [] ↔ _calculate_quality_score I = 100) := by
      intro I
      cases I with
      | nil => simp [_calculate_quality_score]
      | cons i r =>
        constructor
        · intro h
          exact absurd h (by simp)
        · intro h
          exact absurd h (quality_score_lt_100 i r)
    exact key _

/-- Claim C7: the analyzer instance's state (`self.issues`) has no effect
on the result of `analyze_code` — it is reset on entry — so two calls on
the same instance with the same source (under the deterministic external
parser) return identical results, the second retaining nothing from the
first. -/
theorem C7_stateless_idempotent (parse : List Char → Except ParseFailure PyModule)
    (code : List Char) (st st' : List CodeIssue) :
    (analyze_code st (parse code) code).1 = (analyze_code st' (parse code) code).1
    ∧ (analyze_code ((analyze_code st (parse code) code).2) (parse code) code).1
        = (analyze_code st (parse code) code).1 :=
  ⟨rfl, rfl⟩

/-- Claim C8: on both the success and the parse-failure branch,
`total_issues` equals the length of the issue list. -/
theorem C8_total_issues_eq_length (self : List CodeIssue)
    (parsed : Except ParseFailure PyModule) (code : List Char) :
    ((analyze_code self parsed code).1).total_issues
      = ((analyze_code self parsed code).1).issues.length := by
  cases parsed with
  | error e => rfl
  | ok m => exact (List.length_map _ _).symm

/-- Claim C9: on the success branch the quality score is (the cast of) an
integer multiple of 5 lying in [0, 100], and rounding to one decimal place
leaves that integer unchanged. -/
theorem C9_score_is_multiple_of_five (self : List CodeIssue) (m : PyModule) (code : List Char) :
    ∃ n : ℤ, (5 : ℤ) ∣ n ∧ 0 ≤ n ∧ n ≤ 100
      ∧ ((analyze_code self (.ok m) code).1).quality_score = ((n : ℤ) : ℚ)
      ∧ round1 ((n : ℤ) : ℚ) = ((n : ℤ) : ℚ) :=
  ⟨rawScore (_check_function_length m ++ _check_missing_docstrings m ++
      _check_unused_imports m code ++ _check_complex_conditions m ++
      _check_naming_conventions m),
    rawScore_dvd _, (rawScore_bounds _).1, (rawScore_bounds _).2,
    quality_score_eq_rawScore _, round1_intCast _⟩

/-- Claim C10: `lines_of_code` equals the newline count of the source plus
one — so it is at least 1 (the empty string has 1 line) — and the same
formula holds on the success and the parse-failure branch alike. -/
theorem C10_lines_of_code_newlines (self : List CodeIssue)
    (parsed : Except ParseFailure PyModule) (code : List Char) :
    ((analyze_code self parsed code).1).lines_of_code = code.count '\n' + 1
    ∧ 1 ≤ ((analyze_code self parsed code).1).lines_of_code := by
  have h : linesOfCode code = code.count '\n' + 1 := splitNl_length code
  have h2 : 1 ≤ linesOfCode code := by rw [h]; omega
  cases parsed with
  | ok m => exact ⟨h, h2⟩
  | error e => exact ⟨h, h2⟩

end CodeReviewAI

